import Mathlib

/-!
Verification of the GBP/USD trading-workbench backend against its
specification.  Python modules are shallowly embedded: numeric values are
modelled by `ℚ` (exact arithmetic; note `q / 0 = 0` in `ℚ`), tables by lists
of rows, fallible computations by `Except`, and Python's eager evaluation of
function-signature annotations at class-definition time by an explicit
name-resolution pass over the names each `def` statement evaluates.  Where a
property hinges on IEEE-754 binary64 behavior (the Sharpe-ratio zero guard),
the float arithmetic is modelled exactly by rounding each operation's
rational result to 53 significand bits, round-to-nearest, ties-to-even.
-/

/- ------------------------------------------------------------------
   Module-load model for `risk_management/risk_calculator.py` and
   `risk_management/portfolio_manager.py` (claim C1).

   A Python `def` statement inside a class body eagerly evaluates its
   decorator expression, default values and annotation expressions; a name
   not bound in the module environment raises `NameError` at import time.
   We record, for each method in source order, the names so evaluated
   (decorator first, then annotation names left to right), and the module
   environment (its `import`s plus the builtins it references).
   ------------------------------------------------------------------ -/

/-- First name of a list that is not bound in the environment `env`. -/
def firstUndefined (env : List String) : List String → Option String
  | [] => none
  | n :: rest => if n ∈ env then firstUndefined env rest else some n

/-- Execute a class body: evaluate each `def` statement in order; the first
unresolvable name raises `NameError` (modelled as `Except.error` carrying the
offending name). -/
def evalDefs (env : List String) : List (List String) → Except String Unit
  | [] => .ok ()
  | d :: rest =>
    match firstUndefined env d with
    | some n => .error n
    | none => evalDefs env rest

/-- Module environment of `risk_calculator.py`:
`from typing import Dict, Any, List`, `import numpy as np`,
`import pandas as pd`, plus the builtins its signatures reference.
`Optional` is notably absent. -/
def risk_calculator_env : List String :=
  ["Dict", "Any", "List", "np", "pd", "staticmethod", "float", "str"]

/-- Names evaluated by each `def` statement of class `RiskCalculator`, in
source order (decorator, then annotations left to right).  The last entry is
`calculate_portfolio_risk`, whose `correlation_matrix` parameter is annotated
`Optional[pd.DataFrame]`. -/
def risk_calculator_defs : List (List String) :=
  [ ["staticmethod", "List", "float"]                                   -- calculate_sharpe_ratio
  , ["staticmethod", "List", "float"]                                   -- calculate_sortino_ratio
  , ["staticmethod", "List", "float"]                                   -- calculate_var
  , ["staticmethod", "List", "float"]                                   -- calculate_cvar
  , ["staticmethod", "List", "float"]                                   -- calculate_max_drawdown
  , ["staticmethod", "List", "Dict", "str", "Any", "Optional", "pd", "float"] ]  -- calculate_portfolio_risk

/-- Importing `risk_calculator.py`: executing the class body of
`RiskCalculator`. -/
def load_risk_calculator : Except String Unit :=
  evalDefs risk_calculator_env risk_calculator_defs

/-- Module environment of `portfolio_manager.py`:
`from typing import Dict, Any, List, Optional` plus the name bound by
`from app.risk_management.risk_calculator import RiskCalculator` (only
available if that module loads) and referenced builtins. -/
def portfolio_manager_env : List String :=
  ["Dict", "Any", "List", "Optional", "RiskCalculator", "float", "bool", "str"]

/-- Names evaluated by each `def` statement of class `PortfolioManager`, in
source order. -/
def portfolio_manager_defs : List (List String) :=
  [ ["float", "float"]               -- __init__
  , ["float", "float", "bool"]       -- can_open_position
  , ["Dict", "str", "Any", "bool"]   -- add_position
  , ["float"]                        -- update_daily_pnl
  , ["Dict", "str", "Any"]           -- get_portfolio_risk
  , [] ]                             -- reset_daily

/-- Importing `portfolio_manager.py`: line 4 imports `RiskCalculator`, so
the module `risk_calculator.py` is loaded first; on its failure the error
propagates before the class body is reached. -/
def load_portfolio_manager : Except String Unit :=
  match load_risk_calculator with
  | .error e => .error e
  | .ok _ => evalDefs portfolio_manager_env portfolio_manager_defs

/- ------------------------------------------------------------------
   `risk_management/stop_loss.py` / `take_profit.py` (claim C8).
   ------------------------------------------------------------------ -/

namespace StopLoss

/-- `StopLoss.trailing_stop(current_price, highest_price, trail_pips,
direction)` from `stop_loss.py`. -/
def trailing_stop (current_price highest_price trail_pips : ℚ)
    (direction : ℤ) : ℚ :=
  let trail_value := trail_pips / 10000
  if direction = 1 then highest_price - trail_value
  else highest_price + trail_value

end StopLoss

namespace TakeProfit

/-- `TakeProfit.trailing_take_profit(current_price, highest_price,
trail_pips, direction)` from `take_profit.py`. -/
def trailing_take_profit (current_price highest_price trail_pips : ℚ)
    (direction : ℤ) : ℚ :=
  let trail_value := trail_pips / 10000
  if direction = 1 then highest_price - trail_value
  else highest_price + trail_value

end TakeProfit

/- ------------------------------------------------------------------
   `data/historical.py`: `validate_ohlcv_data` (claim C2).
   ------------------------------------------------------------------ -/

/-- One OHLCV bar (a row of the candle table). -/
structure Candle where
  timestamp : ℤ
  «open» : ℚ
  high : ℚ
  low : ℚ
  close : ℚ
  volume : ℤ
deriving DecidableEq, Repr

/-- `df.drop_duplicates(subset=['timestamp'])`: keep the first row bearing
each timestamp (`seen` accumulates timestamps already kept). -/
def drop_duplicates : List Candle → List ℤ → List Candle
  | [], _ => []
  | r :: rest, seen =>
    if r.timestamp ∈ seen then drop_duplicates rest seen
    else r :: drop_duplicates rest (r.timestamp :: seen)

/-- The `invalid_mask` of `validate_ohlcv_data`: OHLC-inconsistent rows. -/
def invalidRow (r : Candle) : Bool :=
  decide (r.high < r.low ∨ r.«open» > r.high ∨ r.«open» < r.low ∨
    r.close > r.high ∨ r.close < r.low)

/-- `df['close'].pct_change().abs() > 0.1` for one consecutive pair: pandas
computes `(cur − prev)/prev`; a zero previous close yields `±inf` (outlier)
for a nonzero current close and `NaN` (not an outlier: `NaN > 0.1` is false)
when both are zero. -/
def isOutlier (prev cur : ℚ) : Bool :=
  if prev = 0 then decide (cur ≠ 0)
  else decide (|(cur - prev) / prev| > 1 / 10)

/-- The table after duplicate removal and the OHLC-consistency filter — the
frame on which the outlier pass computes its percentage changes. -/
def cleanedPreOutlier (df : List Candle) : List Candle :=
  (drop_duplicates df []).filter (fun r => !(invalidRow r))

/-- The outlier pass: the percentage change of row 0 is `NaN` (row kept);
row `i ≥ 1` is dropped iff its close is an outlier against row `i−1` of the
same input frame (the mask is computed once, before any row is removed). -/
def removeOutliers (rows : List Candle) : List Candle :=
  match rows with
  | [] => []
  | r0 :: _ =>
    r0 :: ((rows.zip rows.tail).filter
      (fun pc => !(isOutlier pc.1.close pc.2.close))).map (fun pc => pc.2)

/-- `validate_ohlcv_data`: duplicates dropped, OHLC-inconsistent rows
dropped, outliers dropped only when more than one row remains; the final
forward/back-fill is the identity here since this model has no missing
values. -/
def validate_ohlcv_data (df : List Candle) : List Candle :=
  if (cleanedPreOutlier df).length > 1 then removeOutliers (cleanedPreOutlier df)
  else cleanedPreOutlier df

/-- The Candle invariant claimed for cleaned data: every pair of consecutive
rows has an absolute close-to-close percentage change of at most 10%. -/
def consecutiveClosesWithin10 (rows : List Candle) : Bool :=
  (rows.zip rows.tail).all (fun pc => !(isOutlier pc.1.close pc.2.close))

/-- Three valid, distinct-timestamp bars with closes 1, 1.12, 1.2: the
middle bar is a 12% outlier and is dropped, but the third bar (7.1% above
the dropped bar) is retained, leaving adjacent closes 20% apart. -/
def dfOutlierExample : List Candle :=
  [ ⟨0, 1, 1, 1, 1, 0⟩
  , ⟨1, 28/25, 28/25, 28/25, 28/25, 0⟩
  , ⟨2, 6/5, 6/5, 6/5, 6/5, 0⟩ ]

/- ------------------------------------------------------------------
   `technical_analysis/signals.py`: `filter_signals` (claim C10).
   ------------------------------------------------------------------ -/

/-- One iteration of the `filter_signals` loop: given the held signal and
hold counter, process the bar's signal `s`, returning (output signal, new
held signal, new hold counter).  Mirrors the source's `if`/`elif`/`else`
chain; note the suppression branch overwrites the output to 0 but leaves the
counter untouched, and the `elif` and `else` arms both increment it. -/
def filterStep (min_hold_period : ℕ) (last_signal : ℤ) (hold_count : ℕ)
    (s : ℤ) : ℤ × ℤ × ℕ :=
  if s ≠ 0 ∧ s ≠ last_signal then
    if hold_count < min_hold_period then (0, last_signal, hold_count)
    else (s, s, 0)
  else if s = last_signal then (s, last_signal, hold_count + 1)
  else (s, last_signal, hold_count + 1)

/-- Run the `filter_signals` loop from the initial state
`last_signal = 0, hold_count = 0`, returning the filtered series together
with the final `(last_signal, hold_count)` state. -/
def filterRun (min_hold_period : ℕ) (signals : List ℤ) :
    List ℤ × ℤ × ℕ :=
  signals.foldl
    (fun acc s =>
      let r := filterStep min_hold_period acc.2.1 acc.2.2 s
      (acc.1 ++ [r.1], r.2.1, r.2.2))
    ([], 0, 0)

/-- `filter_signals(signals, min_hold_period)`. -/
def filter_signals (signals : List ℤ) (min_hold_period : ℕ) : List ℤ :=
  (filterRun min_hold_period signals).1

/-- The `(last_signal, hold_count)` state after processing the first `j`
bars. -/
def filterState (min_hold_period : ℕ) (signals : List ℤ) (j : ℕ) : ℤ × ℕ :=
  (filterRun min_hold_period (signals.take j)).2

/- ------------------------------------------------------------------
   `backtesting/walk_forward.py`: `WalkForwardAnalysis.run` (claim C3).

   The per-period backtest (`BacktestEngine.run`) is abstracted as a
   function `bt` from the test window `[test_start, test_end)` to its
   metric bundle; the claim assumes every per-period backtest completes
   without error, so the `except` path that skips a period never fires.
   ------------------------------------------------------------------ -/

/-- The metric summary recorded for one walk-forward period. -/
structure BTMetrics where
  total_return : ℚ
  sharpe_ratio : ℚ
  max_drawdown : ℚ
  win_rate : ℚ
  total_trades : ℕ
deriving DecidableEq, Repr

/-- One entry of the `results` list built by `WalkForwardAnalysis.run`. -/
structure WFPeriod where
  optimization_start : ℕ
  optimization_end : ℕ
  test_start : ℕ
  test_end : ℕ
  metrics : BTMetrics
deriving DecidableEq, Repr

/-- The `while current_start + optimization_period + test_period ≤
total_bars` loop of `WalkForwardAnalysis.run`, with `fuel` bounding the
number of iterations (each iteration advances `current_start` by
`step_size`, so `total_bars + 1` iterations always suffice when
`step_size ≥ 1`; a zero step would loop forever in the source). -/
def wfLoop (bt : ℕ → ℕ → BTMetrics)
    (optimization_period test_period step_size total_bars : ℕ) :
    ℕ → ℕ → List WFPeriod
  | 0, _ => []
  | fuel + 1, current_start =>
    if current_start + optimization_period + test_period ≤ total_bars then
      let opt_end := current_start + optimization_period
      let test_end := min (opt_end + test_period) total_bars
      if test_end - opt_end = 0 then []
      else
        ⟨current_start, opt_end, opt_end, test_end, bt opt_end test_end⟩ ::
          wfLoop bt optimization_period test_period step_size total_bars
            fuel (current_start + step_size)
    else []

/-- `WalkForwardAnalysis.run(optimization_period, test_period, step_size)`
on a table of `total_bars` bars: the list of recorded periods. -/
def walk_forward_run (total_bars : ℕ) (bt : ℕ → ℕ → BTMetrics)
    (optimization_period test_period step_size : ℕ) : List WFPeriod :=
  wfLoop bt optimization_period test_period step_size total_bars
    (total_bars + 1) 0

/- ------------------------------------------------------------------
   `strategies/strategy_executor.py`: `StrategyExecutor.execute` (claim C6).

   A strategy is its `backtest_prepare` and `generate_signals` callables;
   an exception raised inside either is modelled as `Except.error`.
   ------------------------------------------------------------------ -/

/-- The strategy interface as consumed by `StrategyExecutor`. -/
structure Strategy where
  name : String
  backtest_prepare : List Candle → Except String (List Candle)
  generate_signals : List Candle → Except String (List ℤ)

/-- The body of `StrategyExecutor.execute`'s `try` block: `backtest_prepare`
then `generate_signals` on the prepared table. -/
def strategyPipeline (strategy : Strategy) (df : List Candle) :
    Except String (List ℤ) := do
  let prepared_df ← strategy.backtest_prepare df
  strategy.generate_signals prepared_df

/-- `StrategyExecutor.execute(df)`: on any failure inside the pipeline,
logs and returns `pd.Series(0, index=df.index)` — an all-zero series of the
input's length.  The function is total: it always returns a series. -/
def execute (strategy : Strategy) (df : List Candle) : List ℤ :=
  match strategyPipeline strategy df with
  | .ok signals => signals
  | .error _ => List.replicate df.length 0

/- ------------------------------------------------------------------
   `backtesting/monte_carlo.py`: `MonteCarloSimulation.run_simulation`
   (claims C4, C5).

   The source draws `random.sample(self.trades, len(self.trades))` — a
   random permutation — once per run.  The random draws are abstracted as
   the list `perms` of the shuffled trade lists actually used, one per run
   (`n_simulations = perms.length`); the claims' permutation hypothesis is
   stated about them.
   ------------------------------------------------------------------ -/

/-- A historical trade as consumed by the simulation (`trade.get("pnl", 0)`
is its only read field). -/
structure Trade where
  pnl : ℚ
deriving DecidableEq, Repr

/-- Sum of a list divided by its length (`np.mean`; `0` for `[]` since
`q / 0 = 0` in `ℚ`, a case no claim touches). -/
def listMean (l : List ℚ) : ℚ := l.sum / l.length

/-- Population variance (`np.std` squared). -/
def listVariance (l : List ℚ) : ℚ :=
  (l.map (fun x => (x - listMean l) ^ 2)).sum / l.length

/-- Python `int()` applied to a float/rational: truncation toward zero. -/
def pyInt (q : ℚ) : ℤ := if q < 0 then -Int.floor (-q) else Int.floor q

/-- `np.sort`: ascending. -/
def sortQ : List ℚ → List ℚ := List.insertionSort (· ≤ ·)

/-- One iteration of the per-run equity walk: apply a trade's pnl, update
the running peak, and keep the most negative percentage drawdown.  State is
`(equity, peak_equity, max_dd)`.  (The Python code would divide by zero if
a running peak hit exactly 0; in `ℚ` that division yields 0 — no claim
evaluates such a state.) -/
def mcStep (acc : ℚ × ℚ × ℚ) (trade : Trade) : ℚ × ℚ × ℚ :=
  let equity := acc.1 + trade.pnl
  let peak_equity := if equity > acc.2.1 then equity else acc.2.1
  let drawdown := (equity - peak_equity) / peak_equity * 100
  let max_dd := if drawdown < acc.2.2 then drawdown else acc.2.2
  (equity, peak_equity, max_dd)

/-- The equity walk of one simulation run over a shuffled trade list,
started at `(initial_capital, initial_capital, 0)`. -/
def mcWalk (initial_capital : ℚ) (shuffled_trades : List Trade) : ℚ × ℚ × ℚ :=
  shuffled_trades.foldl mcStep (initial_capital, initial_capital, 0)

/-- The result bundle of `run_simulation`. -/
structure MCResult where
  final_values : List ℚ
  mean_final_value : ℚ
  std_final_value : ℝ
  percentile_5 : ℚ
  percentile_95 : ℚ
  probability_of_profit : ℚ
  max_drawdown_distribution : List ℚ
  mean_max_drawdown : ℚ
  worst_case_drawdown : ℚ

/-- `MonteCarloSimulation.run_simulation(n_simulations, confidence_level)`
with the per-run shuffles `perms` made explicit (`n_simulations =
perms.length`).  The no-trades branch returns the source's neutral bundle
(whose dict lacks the `mean_max_drawdown`/`worst_case_drawdown` keys;
modelled as 0 here).  Out-of-range percentile indexing, which would raise
in numpy, is modelled by `getD _ 0`; every claim stays in bounds. -/
noncomputable def run_simulation (trades : List Trade) (initial_capital : ℚ)
    (perms : List (List Trade)) (confidence_level : ℚ) : MCResult :=
  if trades = [] then
    { final_values := [], mean_final_value := initial_capital,
      std_final_value := 0, percentile_5 := initial_capital,
      percentile_95 := initial_capital, probability_of_profit := 0,
      max_drawdown_distribution := [], mean_max_drawdown := 0,
      worst_case_drawdown := 0 }
  else
    let n := perms.length
    let final_values := perms.map (fun p => (mcWalk initial_capital p).1)
    let max_drawdowns := perms.map (fun p => |(mcWalk initial_capital p).2.2|)
    let percentile_5_idx := (pyInt ((1 - confidence_level) / 2 * n)).toNat
    let percentile_95_idx := (pyInt ((1 + confidence_level) / 2 * n)).toNat
    let sorted_values := sortQ final_values
    let sorted_drawdowns := sortQ max_drawdowns
    { final_values := final_values
      mean_final_value := listMean final_values
      std_final_value := Real.sqrt (listVariance final_values)
      percentile_5 := sorted_values.getD percentile_5_idx 0
      percentile_95 := sorted_values.getD percentile_95_idx 0
      probability_of_profit :=
        ((final_values.countP (fun v => decide (initial_capital < v))) : ℚ)
          / n * 100
      max_drawdown_distribution := max_drawdowns
      mean_max_drawdown := listMean max_drawdowns
      worst_case_drawdown := sorted_drawdowns.getD percentile_95_idx 0 }

/- ------------------------------------------------------------------
   `risk_management/position_sizer.py` (claim C7).

   `volatility_based` reads only the last value of `calculate_atr`'s
   output (a vendored `talib.ATR` call, outside this repository); the
   function is therefore embedded over that ATR series.
   ------------------------------------------------------------------ -/

namespace PositionSizer

/-- `PositionSizer.volatility_based(df, risk_per_trade, atr_period,
atr_multiplier)`, over the ATR series computed from `df`:
`current_atr = atr.iloc[-1] if len(atr) > 0 else 0.001`. -/
def volatility_based (atr : List ℚ) (risk_per_trade : ℚ)
    (atr_multiplier : ℚ) : ℚ :=
  let current_atr := atr.getLastD (1 / 1000)
  let stop_distance := current_atr * atr_multiplier
  let pip_value : ℚ := 10
  let stop_in_pips := stop_distance * 10000
  if stop_in_pips = 0 then 0
  else max (1 / 100) (min (risk_per_trade / (stop_in_pips * pip_value)) 1)

/-- `PositionSizer.risk_per_trade(entry_price, stop_loss_price,
risk_amount)`. -/
def risk_per_trade (entry_price stop_loss_price risk_amount : ℚ) : ℚ :=
  let stop_distance := |entry_price - stop_loss_price|
  if stop_distance = 0 then 0
  else
    let pip_value : ℚ := 10
    let stop_in_pips := stop_distance * 10000
    max (1 / 100) (min (risk_amount / (stop_in_pips * pip_value)) 1)

end PositionSizer

/- ------------------------------------------------------------------
   `backtesting/metrics.py`: `calculate_sharpe_ratio` (claim C9).

   The program computes in IEEE-754 binary64, and the behavior of the
   `std_return == 0` guard at `metrics.py:142` depends on it: for all-equal
   pnl whose mean is inexact in binary64, `np.std` is tiny but nonzero and
   the guard does not fire.  Binary64 is modelled exactly: a finite double
   is a rational, and every operation rounds its exact rational result to
   53 significand bits, round-to-nearest, ties-to-even (`roundF`).  The
   exponent is unbounded — faithful whenever no overflow/underflow occurs,
   which holds for every value in the traces below (all magnitudes lie in
   [2^-112, 2^5]).

   `roundF` picks the binade via `Int.log 2 |q|`, scales the value to an
   integer significand plus fraction, and rounds the fraction.
   ------------------------------------------------------------------ -/

/-- Round a rational to IEEE-754 binary64 (53-bit significand,
round-to-nearest, ties-to-even, unbounded exponent). -/
def roundF (q : ℚ) : ℚ :=
  if q = 0 then 0
  else if q / 2 ^ (Int.log 2 |q| - 52) - ⌊q / 2 ^ (Int.log 2 |q| - 52)⌋ < 1/2 then
    (⌊q / 2 ^ (Int.log 2 |q| - 52)⌋ : ℚ) * 2 ^ (Int.log 2 |q| - 52)
  else if 1/2 < q / 2 ^ (Int.log 2 |q| - 52) - ⌊q / 2 ^ (Int.log 2 |q| - 52)⌋ then
    ((⌊q / 2 ^ (Int.log 2 |q| - 52)⌋ : ℚ) + 1) * 2 ^ (Int.log 2 |q| - 52)
  else if 2 ∣ ⌊q / 2 ^ (Int.log 2 |q| - 52)⌋ then
    (⌊q / 2 ^ (Int.log 2 |q| - 52)⌋ : ℚ) * 2 ^ (Int.log 2 |q| - 52)
  else ((⌊q / 2 ^ (Int.log 2 |q| - 52)⌋ : ℚ) + 1) * 2 ^ (Int.log 2 |q| - 52)

/-- Binary64 addition: rounded exact sum. -/
def fadd (a b : ℚ) : ℚ := roundF (a + b)

/-- Binary64 subtraction. -/
def fsub (a b : ℚ) : ℚ := roundF (a - b)

/-- Binary64 multiplication. -/
def fmul (a b : ℚ) : ℚ := roundF (a * b)

/-- Binary64 division. -/
def fdiv (a b : ℚ) : ℚ := roundF (a / b)

/-- `returns = [t.get("pnl", 0) / 10000 for t in trades]` in binary64. -/
def returnsF (trades : List Trade) : List ℚ :=
  trades.map (fun t => fdiv t.pnl 10000)

/-- `np.sum` / `umr_sum` over a small array: numpy adds sequentially from
the first element for fewer than 8 summands (pairwise blocking starts
above that). -/
def npSumF : List ℚ → ℚ
  | [] => 0
  | h :: t => t.foldl fadd h

/-- `np.mean`: the float sum divided (in binary64) by the length. -/
def npMeanF (l : List ℚ) : ℚ := fdiv (npSumF l) l.length

/-- The squared radicand of `np.std` (population): mean of the squared
deviations from the float mean, every operation rounded. -/
def npVarF (l : List ℚ) : ℚ :=
  npMeanF (l.map (fun x => fmul (fsub x (npMeanF l)) (fsub x (npMeanF l))))

/-- `calculate_sharpe_ratio(trades, equity_curve, risk_free_rate)` from
`metrics.py` (the `equity_curve` parameter is unread in the source) in
binary64 semantics.  `std_return = np.sqrt(variance)`: IEEE square root is
the correctly rounded real square root, and it is zero exactly when its
argument is, so the `std_return == 0` guard is the real-square-root test
below.  The value of the final branch keeps the remaining arithmetic
exact; binary64 rounding preserves strict positivity (no underflow at
these magnitudes), which is all the accompanying theorem uses of it. -/
noncomputable def calculate_sharpe_ratio_float (trades : List Trade)
    (risk_free_rate : ℚ) : ℝ :=
  if trades.length < 2 then 0
  else if (returnsF trades).length < 2 then 0
  else if Real.sqrt ((npVarF (returnsF trades) : ℚ) : ℝ) = 0 then 0
  else ((npMeanF (returnsF trades) : ℚ) - (risk_free_rate : ℝ) / 252) /
    Real.sqrt ((npVarF (returnsF trades) : ℚ) : ℝ) * Real.sqrt 252

/- ------------------------------------------------------------------
   Claim theorems.
   ------------------------------------------------------------------ -/

/-- C1: Loading the Risk Calculator module always fails with `NameError` on
the unimported name `Optional` (used in the signature of
`RiskCalculator.calculate_portfolio_risk`), hence importing
`PortfolioManager` fails identically and neither module ever loads
successfully, so no operation of either class can be invoked. -/
theorem riskCalculatorImportFails :
    load_risk_calculator = Except.error "Optional" ∧
    load_portfolio_manager = Except.error "Optional" ∧
    (∀ u : Unit, load_risk_calculator ≠ Except.ok u) ∧
    (∀ u : Unit, load_portfolio_manager ≠ Except.ok u) := by
  refine ⟨rfl, rfl, ?_, ?_⟩ <;> intro u h <;> simp [load_risk_calculator,
    load_portfolio_manager, evalDefs, firstUndefined, risk_calculator_env,
    risk_calculator_defs] at h

/-- On the example table, deduplication and the OHLC filter drop nothing. -/
theorem cleanedPreOutlierExampleEval :
    cleanedPreOutlier dfOutlierExample = dfOutlierExample := by
  norm_num [cleanedPreOutlier, dfOutlierExample, drop_duplicates, invalidRow]

/-- Evaluation of the cleaning pass on the example table: only the middle
bar (a 12% outlier) is dropped. -/
theorem validateOhlcvExampleEval :
    validate_ohlcv_data dfOutlierExample =
      [⟨0, 1, 1, 1, 1, 0⟩, ⟨2, 6/5, 6/5, 6/5, 6/5, 0⟩] := by
  rw [validate_ohlcv_data, cleanedPreOutlierExampleEval]
  norm_num [dfOutlierExample, removeOutliers, isOutlier, lt_abs, abs_le,
    List.filter, List.zip]

/-- C2 counterexample: on three valid bars with closes 1, 1.12, 1.2 the
single cleaning pass drops only the middle bar, so the cleaned output is the
close pair (1, 1.2), whose percentage change is 20% — the claimed invariant
`consecutive |close pct-change| ≤ 10%` fails on the cleaned output. -/
theorem validateOhlcvChainCounterexample :
    consecutiveClosesWithin10 (validate_ohlcv_data dfOutlierExample) = false ∧
    (validate_ohlcv_data dfOutlierExample).map Candle.close = [1, 6/5] := by
  rw [validateOhlcvExampleEval]
  constructor
  · norm_num [consecutiveClosesWithin10, isOutlier, lt_abs]
  · norm_num

/-- C2 amended: after the single cleaning pass, every retained row other
than the first is within 10% of the row immediately preceding it in the
deduplicated, OHLC-validated frame (the frame the outlier mask was computed
on) — not necessarily of its predecessor in the cleaned output. -/
theorem validateOhlcvOutlierAmended (df : List Candle) (x : Candle)
    (hx : x ∈ (validate_ohlcv_data df).drop 1) :
    ∃ pc ∈ (cleanedPreOutlier df).zip (cleanedPreOutlier df).tail,
      pc.2 = x ∧ isOutlier pc.1.close pc.2.close = false := by
  unfold validate_ohlcv_data at hx
  by_cases h : (cleanedPreOutlier df).length > 1
  · rw [if_pos h] at hx
    rcases hmid : cleanedPreOutlier df with _ | ⟨r0, rest⟩
    · rw [hmid] at h; simp at h
    · rw [hmid] at hx
      simp only [removeOutliers, List.drop_succ_cons, List.drop_zero] at hx
      obtain ⟨pc, hpcmem, hpcx⟩ := List.mem_map.mp hx
      obtain ⟨hpairs, hkeep⟩ := List.mem_filter.mp hpcmem
      refine ⟨pc, ?_, hpcx, ?_⟩
      · exact hpairs
      · simpa using hkeep
  · rw [if_neg h] at hx
    rw [List.drop_eq_nil_of_le (by omega)] at hx
    simp at hx

/-- C8: `StopLoss.trailing_stop` and `TakeProfit.trailing_take_profit` are
extensionally equal, both computing `highest_price − trail_pips/10000` when
`direction = 1` and `highest_price + trail_pips/10000` otherwise. -/
theorem trailingStopTakeProfitEqual :
    ∀ (cp hp tp : ℚ) (d : ℤ),
      StopLoss.trailing_stop cp hp tp d = TakeProfit.trailing_take_profit cp hp tp d ∧
      StopLoss.trailing_stop cp hp tp d =
        (if d = 1 then hp - tp / 10000 else hp + tp / 10000) := by
  intro cp hp tp d
  exact ⟨rfl, rfl⟩

/-- Witness for the amended C2 theorem: instantiated at `dfOutlierExample`
and its retained third bar. -/
theorem validateOhlcvOutlierAmendedWitness :
    (⟨2, 6/5, 6/5, 6/5, 6/5, 0⟩ : Candle) ∈
      (validate_ohlcv_data dfOutlierExample).drop 1 ∧
    ∃ pc ∈ (cleanedPreOutlier dfOutlierExample).zip
        (cleanedPreOutlier dfOutlierExample).tail,
      pc.2 = (⟨2, 6/5, 6/5, 6/5, 6/5, 0⟩ : Candle) ∧
      isOutlier pc.1.close pc.2.close = false :=
  ⟨by simp [validateOhlcvExampleEval],
   validateOhlcvOutlierAmended dfOutlierExample _
     (by simp [validateOhlcvExampleEval])⟩

/-- C10 counterexample: run `filter_signals` with `min_hold_period = 2` on
the series `[0, 1]`.  Bar 0 carries signal 0, so the counter is incremented
to 1.  At bar 1 the incoming signal 1 is nonzero and differs from the held
signal 0 and is suppressed (overwritten to 0), yet the counter after that
bar is still 1, not 0 — the suppression branch never resets the counter. -/
theorem filterSignalsResetCounterexample :
    (filterState 2 [0, 1] 1).1 = 0 ∧
    (filterState 2 [0, 1] 1).2 = 1 ∧
    ([0, (1 : ℤ)].getD 1 0 = 1 ∧ (1 : ℤ) ≠ 0) ∧
    filter_signals [0, 1] 2 = [0, 0] ∧
    (filterState 2 [0, 1] 2).2 = 1 ∧ (1 : ℕ) ≠ 0 := by
  decide

/-- C10 amended: at every bar the hold counter is reset to zero in exactly
one situation — the held signal changes (a nonzero signal differing from the
held one arrives once the counter has reached `min_hold_period`); when such
a signal is instead suppressed and overwritten to 0, the counter is left
unchanged; on every other bar it is incremented. -/
theorem filterSignalsCounterAmended (min_hold_period : ℕ) (signals : List ℤ)
    (i : ℕ) (h : i < signals.length) :
    (filterState min_hold_period signals (i + 1)).2 =
      (if signals.getD i 0 ≠ 0 ∧
          signals.getD i 0 ≠ (filterState min_hold_period signals i).1 then
        (if (filterState min_hold_period signals i).2 < min_hold_period then
          (filterState min_hold_period signals i).2
         else 0)
       else (filterState min_hold_period signals i).2 + 1) := by
  have hget : signals.take (i + 1) =
      signals.take i ++ [signals.getD i 0] := by
    rw [List.getD_eq_get? , List.get?_eq_get h, Option.getD_some]
    exact List.take_succ.trans (by rw [List.getElem?_eq_getElem h]; rfl)
  unfold filterState filterRun
  rw [hget, List.foldl_append]
  simp only [List.foldl_cons, List.foldl_nil]
  unfold filterStep
  split_ifs <;> rfl

/-- C3: walk-forward analysis over 400 bars with
`optimization_period = 252`, `test_period = 63`, `step_size = 21` (all
backtests assumed to succeed, for any backtest results `bt`) starts windows
at bar offsets 0, 21, 42, 63, 84, stops before offset 105 (since
105 + 252 + 63 > 400), and records exactly 5 periods, testing on
`[252,315), [273,336), [294,357), [315,378), [336,399)`. -/
theorem walkForwardWindowing400 (bt : ℕ → ℕ → BTMetrics) :
    (walk_forward_run 400 bt 252 63 21).map WFPeriod.optimization_start =
      [0, 21, 42, 63, 84] ∧
    (walk_forward_run 400 bt 252 63 21).map
        (fun p => (p.test_start, p.test_end)) =
      [(252, 315), (273, 336), (294, 357), (315, 378), (336, 399)] ∧
    (walk_forward_run 400 bt 252 63 21).length = 5 := by
  refine ⟨?_, ?_, ?_⟩ <;> rfl

/-- C6: `StrategyExecutor.execute` never propagates an error — it is a
total function — and whenever the `backtest_prepare`/`generate_signals`
pipeline fails, it returns an all-zero series whose length equals the
number of rows of the input table. -/
theorem strategyExecutorFailsafe (strategy : Strategy) (df : List Candle)
    (e : String) (h : strategyPipeline strategy df = Except.error e) :
    execute strategy df = List.replicate df.length 0 ∧
    (execute strategy df).length = df.length ∧
    (∀ i, i < df.length → (execute strategy df).getD i 1 = 0) := by
  unfold execute
  rw [h]
  refine ⟨rfl, List.length_replicate _ _, fun i hi => ?_⟩
  rw [List.getD_eq_getElem?_getD, List.getElem?_replicate]
  simp [hi]

/-- Witness for C6: a strategy whose `generate_signals` raises, run on a
one-row table. -/
theorem strategyExecutorFailsafeWitness :
    strategyPipeline
        ⟨"always_fails", fun d => Except.ok d, fun _ => Except.error "boom"⟩
        [⟨0, 1, 1, 1, 1, 0⟩] = Except.error "boom" ∧
    execute
        ⟨"always_fails", fun d => Except.ok d, fun _ => Except.error "boom"⟩
        [⟨0, 1, 1, 1, 1, 0⟩] =
      List.replicate ([⟨0, 1, 1, 1, 1, 0⟩] : List Candle).length 0 :=
  ⟨rfl,
   (strategyExecutorFailsafe
     ⟨"always_fails", fun d => Except.ok d, fun _ => Except.error "boom"⟩
     [⟨0, 1, 1, 1, 1, 0⟩] "boom" rfl).1⟩

/-- The equity component of the Monte Carlo walk is the starting capital
plus the sum of the applied pnl values, whatever the drawdown tracking
does. -/
theorem mcWalk_equity (initial_capital : ℚ) (shuffled_trades : List Trade) :
    (mcWalk initial_capital shuffled_trades).1 =
      initial_capital + (shuffled_trades.map Trade.pnl).sum := by
  suffices h : ∀ (ts : List Trade) (acc : ℚ × ℚ × ℚ),
      (ts.foldl mcStep acc).1 = acc.1 + (ts.map Trade.pnl).sum by
    exact h shuffled_trades (initial_capital, initial_capital, 0)
  intro ts
  induction ts with
  | nil => intro acc; simp
  | cons t rest ih =>
    intro acc
    rw [List.foldl_cons, ih, List.map_cons, List.sum_cons]
    show acc.1 + t.pnl + _ = _
    ring

/-- C4: when every per-run shuffle is a permutation of the trade list
(which `random.sample(trades, len(trades))` guarantees), every run's final
equity equals `initial_capital` plus the total original pnl, so the whole
`final_values` sample is that constant, and `probability_of_profit` is
`count(final_value > initial_capital) / n_simulations × 100` over the
generated sample. -/
theorem monteCarloPermutationInvariant (trades : List Trade)
    (initial_capital confidence_level : ℚ) (perms : List (List Trade))
    (hne : trades ≠ []) (hperm : ∀ p ∈ perms, p.Perm trades) :
    (∀ p ∈ perms, (mcWalk initial_capital p).1 =
      initial_capital + (trades.map Trade.pnl).sum) ∧
    (run_simulation trades initial_capital perms confidence_level).final_values =
      perms.map (fun _ => initial_capital + (trades.map Trade.pnl).sum) ∧
    (run_simulation trades initial_capital perms confidence_level).probability_of_profit =
      (((run_simulation trades initial_capital perms
          confidence_level).final_values.countP
            (fun v => decide (initial_capital < v))) : ℚ) / perms.length * 100 := by
  have hfinal : ∀ p ∈ perms, (mcWalk initial_capital p).1 =
      initial_capital + (trades.map Trade.pnl).sum := by
    intro p hp
    rw [mcWalk_equity]
    congr 1
    exact ((hperm p hp).map Trade.pnl).sum_eq
  refine ⟨hfinal, ?_, ?_⟩
  · rw [run_simulation, if_neg hne]
    exact List.map_congr_left hfinal
  · rw [run_simulation, if_neg hne]

/-- Witness for C4: one trade of pnl 5, a single identity shuffle. -/
theorem monteCarloPermutationInvariantWitness :
    ([⟨5⟩] : List Trade) ≠ [] ∧
    (∀ p ∈ [[(⟨5⟩ : Trade)]], p.Perm [⟨5⟩]) ∧
    (∀ p ∈ [[(⟨5⟩ : Trade)]], (mcWalk 10000 p).1 =
      10000 + (([⟨5⟩] : List Trade).map Trade.pnl).sum) :=
  ⟨by simp, by simp,
   (monteCarloPermutationInvariant [⟨5⟩] 10000 (95/100) [[⟨5⟩]]
     (by simp) (by simp)).1⟩

/-- C5: with non-empty trades, 1000 simulations and confidence level 0.95,
`percentile_5` is entry ⌊(1−0.95)/2 × 1000⌋ = 25 of the ascending-sorted
final values, `percentile_95` is entry ⌊(1+0.95)/2 × 1000⌋ = 975, and
`worst_case_drawdown` reuses index 975 into the ascending-sorted drawdown
distribution. -/
theorem monteCarloPercentileIndices (trades : List Trade)
    (initial_capital : ℚ) (perms : List (List Trade))
    (hne : trades ≠ []) (hlen : perms.length = 1000) :
    (pyInt ((1 - 95/100) / 2 * (1000 : ℚ))).toNat = 25 ∧
    (pyInt ((1 + 95/100) / 2 * (1000 : ℚ))).toNat = 975 ∧
    (run_simulation trades initial_capital perms (95/100)).percentile_5 =
      (sortQ (run_simulation trades initial_capital perms
        (95/100)).final_values).getD 25 0 ∧
    (run_simulation trades initial_capital perms (95/100)).percentile_95 =
      (sortQ (run_simulation trades initial_capital perms
        (95/100)).final_values).getD 975 0 ∧
    (run_simulation trades initial_capital perms (95/100)).worst_case_drawdown =
      (sortQ (run_simulation trades initial_capital perms
        (95/100)).max_drawdown_distribution).getD 975 0 := by
  have h5 : (pyInt ((1 - 95/100) / 2 * (1000 : ℚ))).toNat = 25 := by
    have hv : ((1 - 95/100) / 2 * (1000 : ℚ)) = 25 := by norm_num
    rw [pyInt, hv, if_neg (by norm_num), show ⌊(25 : ℚ)⌋ = 25 by norm_num]
    rfl
  have h95 : (pyInt ((1 + 95/100) / 2 * (1000 : ℚ))).toNat = 975 := by
    have hv : ((1 + 95/100) / 2 * (1000 : ℚ)) = 975 := by norm_num
    rw [pyInt, hv, if_neg (by norm_num), show ⌊(975 : ℚ)⌋ = 975 by norm_num]
    rfl
  refine ⟨h5, h95, ?_, ?_, ?_⟩ <;>
    · rw [run_simulation, if_neg hne]
      simp only [hlen]
      rw [show ((1000 : ℕ) : ℚ) = (1000 : ℚ) by norm_num]
      first
      | rw [h5]
      | rw [h95]

/-- Witness for C5: one trade, 1000 identical identity shuffles. -/
theorem monteCarloPercentileIndicesWitness :
    ([⟨5⟩] : List Trade) ≠ [] ∧
    (List.replicate 1000 [(⟨5⟩ : Trade)]).length = 1000 ∧
    (run_simulation [⟨5⟩] 10000 (List.replicate 1000 [⟨5⟩])
        (95/100)).percentile_5 =
      (sortQ (run_simulation [⟨5⟩] 10000 (List.replicate 1000 [⟨5⟩])
        (95/100)).final_values).getD 25 0 :=
  ⟨by simp, by rw [List.length_replicate],
   (monteCarloPercentileIndices [⟨5⟩] 10000 (List.replicate 1000 [⟨5⟩])
     (by simp) (by rw [List.length_replicate])).2.2.1⟩

/-- C7: both position sizers return a value in `[0.01, 1.0]` lots whenever
the stop distance is strictly positive (a positive latest-ATR ×
multiplier for `volatility_based`; an entry price differing from the stop
price for `risk_per_trade`), and return exactly 0 when the stop distance is
0. -/
theorem positionSizerClamps :
    (∀ (atr : List ℚ) (risk mult : ℚ),
      0 < atr.getLastD (1/1000) * mult →
      1/100 ≤ PositionSizer.volatility_based atr risk mult ∧
        PositionSizer.volatility_based atr risk mult ≤ 1) ∧
    (∀ (atr : List ℚ) (risk mult : ℚ),
      atr.getLastD (1/1000) * mult = 0 →
      PositionSizer.volatility_based atr risk mult = 0) ∧
    (∀ entry_price stop_loss_price risk_amount : ℚ,
      entry_price ≠ stop_loss_price →
      1/100 ≤ PositionSizer.risk_per_trade entry_price stop_loss_price
          risk_amount ∧
        PositionSizer.risk_per_trade entry_price stop_loss_price
          risk_amount ≤ 1) ∧
    (∀ entry_price stop_loss_price risk_amount : ℚ,
      entry_price = stop_loss_price →
      PositionSizer.risk_per_trade entry_price stop_loss_price
        risk_amount = 0) := by
  refine ⟨?_, ?_, ?_, ?_⟩
  · intro atr risk mult h
    have hpos : (0 : ℚ) < atr.getLastD (1/1000) * mult * 10000 :=
      mul_pos h (by norm_num)
    simp only [PositionSizer.volatility_based]
    rw [if_neg hpos.ne']
    exact ⟨le_max_left _ _, max_le (by norm_num) (min_le_right _ _)⟩
  · intro atr risk mult h
    simp only [PositionSizer.volatility_based]
    rw [if_pos (by rw [h]; ring)]
  · intro e s r h
    simp only [PositionSizer.risk_per_trade]
    rw [if_neg (abs_ne_zero.mpr (sub_ne_zero.mpr h))]
    exact ⟨le_max_left _ _, max_le (by norm_num) (min_le_right _ _)⟩
  · intro e s r h
    simp only [PositionSizer.risk_per_trade]
    rw [if_pos (by rw [h]; simp)]

/-- Witness for C7: each of the four cases instantiated at a concrete
input. -/
theorem positionSizerClampsWitness :
    (0 < ([2/10000] : List ℚ).getLastD (1/1000) * 2 ∧
      1/100 ≤ PositionSizer.volatility_based [2/10000] 100 2 ∧
      PositionSizer.volatility_based [2/10000] 100 2 ≤ 1) ∧
    (([0] : List ℚ).getLastD (1/1000) * 5 = 0 ∧
      PositionSizer.volatility_based [0] 100 5 = 0) ∧
    ((2 : ℚ) ≠ 1 ∧
      1/100 ≤ PositionSizer.risk_per_trade 2 1 100 ∧
      PositionSizer.risk_per_trade 2 1 100 ≤ 1) ∧
    ((1 : ℚ) = 1 ∧ PositionSizer.risk_per_trade 1 1 100 = 0) :=
  have h1 : 0 < ([2/10000] : List ℚ).getLastD (1/1000) * 2 := by
    norm_num [List.getLastD]
  have h2 : ([0] : List ℚ).getLastD (1/1000) * 5 = 0 := by
    simp [List.getLastD]
  have h3 : (2 : ℚ) ≠ 1 := by norm_num
  have h4 : (1 : ℚ) = 1 := rfl
  ⟨⟨h1, positionSizerClamps.1 [2/10000] 100 2 h1⟩,
   ⟨h2, positionSizerClamps.2.1 [0] 100 5 h2⟩,
   ⟨h3, positionSizerClamps.2.2.1 2 1 100 h3⟩,
   ⟨h4, positionSizerClamps.2.2.2 1 1 100 h4⟩⟩

/-- `Int.log 2` is determined by the enclosing binade. -/
theorem int_log_eq_of (q : ℚ) (L : ℤ) (hq : 0 < q)
    (h1 : (2 : ℚ) ^ L ≤ q) (h2 : q < 2 ^ (L + 1)) : Int.log 2 q = L := by
  have hb : 1 < (2 : ℕ) := by norm_num
  have hle : L ≤ Int.log 2 q := by
    rw [← Int.zpow_le_iff_le_log hb hq]
    push_cast
    exact h1
  have hlt : Int.log 2 q < L + 1 := by
    rw [← Int.lt_zpow_iff_log_lt hb hq]
    push_cast
    exact h2
  omega

/-- `roundF` evaluation: significand fraction below one half rounds down. -/
theorem roundF_eq_down (q : ℚ) (L r : ℤ) (hq : q ≠ 0)
    (h1 : (2 : ℚ) ^ L ≤ |q|) (h2 : |q| < 2 ^ (L + 1))
    (hfl : ⌊q / 2 ^ (L - 52)⌋ = r) (hfr : q / 2 ^ (L - 52) - r < 1/2) :
    roundF q = r * 2 ^ (L - 52) := by
  have hL : Int.log 2 |q| = L := int_log_eq_of _ _ (abs_pos.mpr hq) h1 h2
  rw [roundF, if_neg hq, hL, hfl, if_pos hfr]

/-- `roundF` evaluation: significand fraction above one half rounds up. -/
theorem roundF_eq_up (q : ℚ) (L r : ℤ) (hq : q ≠ 0)
    (h1 : (2 : ℚ) ^ L ≤ |q|) (h2 : |q| < 2 ^ (L + 1))
    (hfl : ⌊q / 2 ^ (L - 52)⌋ = r) (hfr : 1/2 < q / 2 ^ (L - 52) - r) :
    roundF q = (r + 1) * 2 ^ (L - 52) := by
  have hL : Int.log 2 |q| = L := int_log_eq_of _ _ (abs_pos.mpr hq) h1 h2
  rw [roundF, if_neg hq, hL, hfl, if_neg (by linarith), if_pos hfr]

/-- `roundF` evaluation: a tie next to an odd significand rounds to the
even neighbour above. -/
theorem roundF_eq_tie_odd (q : ℚ) (L r : ℤ) (hq : q ≠ 0)
    (h1 : (2 : ℚ) ^ L ≤ |q|) (h2 : |q| < 2 ^ (L + 1))
    (hfl : ⌊q / 2 ^ (L - 52)⌋ = r) (hfr : q / 2 ^ (L - 52) - r = 1/2)
    (hodd : ¬ 2 ∣ r) :
    roundF q = (r + 1) * 2 ^ (L - 52) := by
  have hL : Int.log 2 |q| = L := int_log_eq_of _ _ (abs_pos.mpr hq) h1 h2
  rw [roundF, if_neg hq, hL, hfl, if_neg (by rw [hfr]; norm_num),
    if_neg (by rw [hfr]; norm_num), if_neg hodd]

/-- `roundF` is the identity on values already representable in 53 bits at
their binade. -/
theorem roundF_eq_exact (q : ℚ) (L r : ℤ) (hq : q ≠ 0)
    (h1 : (2 : ℚ) ^ L ≤ |q|) (h2 : |q| < 2 ^ (L + 1))
    (hr : q = (r : ℚ) * 2 ^ (L - 52)) : roundF q = q := by
  have hfl : ⌊q / 2 ^ (L - 52)⌋ = r := by
    rw [hr, mul_div_assoc, div_self (by positivity), mul_one, Int.floor_intCast]
  have hfr : q / 2 ^ (L - 52) - r < 1/2 := by
    rw [hr, mul_div_assoc, div_self (by positivity), mul_one]
    norm_num
  rw [roundF_eq_down q L r hq h1 h2 hfl hfr, ← hr]

/-- `1000.0 / 10000.0` in binary64: the nearest double to 1/10 (the tail of
the repeating binary fraction rounds the significand up). -/
theorem floatReturnEval : fdiv (1000 : ℚ) 10000 = 7205759403792794 / 2 ^ 56 := by
  rw [fdiv, show ((1000 : ℚ) / 10000) = 1/10 by norm_num]
  rw [roundF_eq_up (1/10) (-4) 7205759403792793 (by norm_num)
    (by rw [abs_of_pos] <;> norm_num) (by rw [abs_of_pos] <;> norm_num)
    (by norm_num) (by norm_num)]
  norm_num

/-- `0.1d + 0.1d` is exact (a pure exponent shift). -/
theorem floatSumStepOne : fadd (7205759403792794 / 2 ^ 56)
    (7205759403792794 / 2 ^ 56) = 7205759403792794 / 2 ^ 55 := by
  rw [fadd, show (7205759403792794 / 2 ^ 56 + 7205759403792794 / 2 ^ 56 : ℚ) =
    7205759403792794 / 2 ^ 55 by ring]
  rw [roundF_eq_exact (7205759403792794 / 2 ^ 55) (-3) 7205759403792794
    (by norm_num) (by rw [abs_of_pos] <;> norm_num)
    (by rw [abs_of_pos] <;> norm_num) (by norm_num)]

/-- `0.2d + 0.1d`: a tie next to an odd significand, rounded up to even. -/
theorem floatSumStepTwo : fadd (7205759403792794 / 2 ^ 55)
    (7205759403792794 / 2 ^ 56) = 5404319552844596 / 2 ^ 54 := by
  rw [fadd, show (7205759403792794 / 2 ^ 55 + 7205759403792794 / 2 ^ 56 : ℚ) =
    21617278211378382 / 2 ^ 56 by ring]
  rw [roundF_eq_tie_odd (21617278211378382 / 2 ^ 56) (-2) 5404319552844595
    (by norm_num) (by rw [abs_of_pos] <;> norm_num)
    (by rw [abs_of_pos] <;> norm_num) (by norm_num) (by norm_num)
    (by norm_num)]
  norm_num

/-- The float sum of the three returns divided by 3: the mean rounds up to
one ulp ABOVE `0.1d` — all-equal inputs, yet the float mean differs from
the elements. -/
theorem floatMeanEval : fdiv (5404319552844596 / 2 ^ 54) 3 =
    7205759403792795 / 2 ^ 56 := by
  rw [fdiv]
  rw [roundF_eq_up (5404319552844596 / 2 ^ 54 / 3) (-4) 7205759403792794
    (by norm_num) (by rw [abs_of_pos] <;> norm_num)
    (by rw [abs_of_pos] <;> norm_num) (by norm_num) (by norm_num)]
  norm_num

/-- Deviation of each return from the float mean: exactly `-2^-56`. -/
theorem floatDevEval : fsub (7205759403792794 / 2 ^ 56)
    (7205759403792795 / 2 ^ 56) = -(1 / 2 ^ 56) := by
  rw [fsub, show (7205759403792794 / 2 ^ 56 - 7205759403792795 / 2 ^ 56 : ℚ) =
    -(1 / 2 ^ 56) by ring]
  rw [roundF_eq_exact (-(1 / 2 ^ 56)) (-56) (-(2 ^ 52))
    (by norm_num) (by rw [abs_of_neg] <;> norm_num)
    (by rw [abs_of_neg] <;> norm_num) (by push_cast; norm_num)]

/-- Squared deviation: exactly `2^-112`. -/
theorem floatSqEval : fmul (-(1 / 2 ^ 56)) (-(1 / 2 ^ 56)) = 1 / 2 ^ 112 := by
  rw [fmul, show ((-(1 / 2 ^ 56)) * (-(1 / 2 ^ 56)) : ℚ) = 1 / 2 ^ 112 by ring]
  rw [roundF_eq_exact (1 / 2 ^ 112) (-112) (2 ^ 52)
    (by norm_num) (by rw [abs_of_pos] <;> norm_num)
    (by rw [abs_of_pos] <;> norm_num) (by push_cast; norm_num)]

/-- First addition of the squared deviations (exact). -/
theorem floatSqSumStepOne : fadd (1 / 2 ^ 112) (1 / 2 ^ 112) = 1 / 2 ^ 111 := by
  rw [fadd, show ((1 / 2 ^ 112) + (1 / 2 ^ 112) : ℚ) = 1 / 2 ^ 111 by ring]
  rw [roundF_eq_exact (1 / 2 ^ 111) (-111) (2 ^ 52)
    (by norm_num) (by rw [abs_of_pos] <;> norm_num)
    (by rw [abs_of_pos] <;> norm_num) (by push_cast; norm_num)]

/-- Second addition of the squared deviations (exact). -/
theorem floatSqSumStepTwo : fadd (1 / 2 ^ 111) (1 / 2 ^ 112) = 3 / 2 ^ 112 := by
  rw [fadd, show ((1 / 2 ^ 111) + (1 / 2 ^ 112) : ℚ) = 3 / 2 ^ 112 by ring]
  rw [roundF_eq_exact (3 / 2 ^ 112) (-111) (3 * 2 ^ 51)
    (by norm_num) (by rw [abs_of_pos] <;> norm_num)
    (by rw [abs_of_pos] <;> norm_num) (by push_cast; norm_num)]

/-- The variance division by 3 (exact). -/
theorem floatVarDivEval : fdiv (3 / 2 ^ 112) 3 = 1 / 2 ^ 112 := by
  rw [fdiv, show ((3 / 2 ^ 112) / 3 : ℚ) = 1 / 2 ^ 112 by ring]
  rw [roundF_eq_exact (1 / 2 ^ 112) (-112) (2 ^ 52)
    (by norm_num) (by rw [abs_of_pos] <;> norm_num)
    (by rw [abs_of_pos] <;> norm_num) (by push_cast; norm_num)]

/-- Shape of `npSumF` on a three-element array. -/
theorem npSumF_three (a b c : ℚ) : npSumF [a, b, c] = fadd (fadd a b) c := rfl

/-- Shape of `npMeanF` on a three-element array. -/
theorem npMeanF_three (a b c : ℚ) :
    npMeanF [a, b, c] = fdiv (fadd (fadd a b) c) 3 := by
  rw [npMeanF, npSumF_three]
  norm_num

/-- Shape of `npVarF` on a three-element array. -/
theorem npVarF_three (a b c : ℚ) :
    npVarF [a, b, c] =
      fdiv (fadd (fadd
        (fmul (fsub a (npMeanF [a, b, c])) (fsub a (npMeanF [a, b, c])))
        (fmul (fsub b (npMeanF [a, b, c])) (fsub b (npMeanF [a, b, c]))))
        (fmul (fsub c (npMeanF [a, b, c])) (fsub c (npMeanF [a, b, c])))) 3 := by
  simp only [npVarF, List.map]
  rw [npMeanF_three]

/-- The normalized returns of three trades of pnl 1000.0. -/
theorem returnsFFailingEval : returnsF [⟨1000⟩, ⟨1000⟩, ⟨1000⟩] =
    [7205759403792794 / 2 ^ 56, 7205759403792794 / 2 ^ 56,
     7205759403792794 / 2 ^ 56] := by
  simp only [returnsF, List.map]
  rw [floatReturnEval]

/-- Their float mean: one ulp above the common element. -/
theorem npMeanFFailingEval : npMeanF [(7205759403792794 / 2 ^ 56 : ℚ),
    7205759403792794 / 2 ^ 56, 7205759403792794 / 2 ^ 56] =
    7205759403792795 / 2 ^ 56 := by
  rw [npMeanF_three, floatSumStepOne, floatSumStepTwo, floatMeanEval]

/-- Their float variance: exactly `2^-112`, not 0 — so
`np.std = 2^-56 ≈ 1.39e-17` and the `std_return == 0` guard does not
fire. -/
theorem npVarFFailingEval : npVarF [(7205759403792794 / 2 ^ 56 : ℚ),
    7205759403792794 / 2 ^ 56, 7205759403792794 / 2 ^ 56] = 1 / 2 ^ 112 := by
  rw [npVarF_three, npMeanFFailingEval, floatDevEval, floatSqEval,
    floatSqSumStepOne, floatSqSumStepTwo, floatVarDivEval]

/-- C9 (code bug): spec §8 property 6 requires that all-coinciding trade
pnl yield `sharpe_ratio = 0` exactly, but for three trades of pnl `1000.0`
the binary64 program computes returns `[0.1, 0.1, 0.1]` whose `np.std` is
`2^-56 ≠ 0`; the `std_return == 0` guard at `metrics.py:142` does not fire
and the function returns the (strictly positive, ≈ 1.14e17) annualized
quotient instead of 0. -/
theorem sharpeFloat64FailingInput :
    npVarF (returnsF [⟨1000⟩, ⟨1000⟩, ⟨1000⟩]) = 1 / 2 ^ 112 ∧
    Real.sqrt ((npVarF (returnsF [⟨1000⟩, ⟨1000⟩, ⟨1000⟩]) : ℚ) : ℝ) ≠ 0 ∧
    0 < calculate_sharpe_ratio_float [⟨1000⟩, ⟨1000⟩, ⟨1000⟩] (2/100) := by
  have hv : npVarF (returnsF [⟨1000⟩, ⟨1000⟩, ⟨1000⟩]) = 1 / 2 ^ 112 := by
    rw [returnsFFailingEval, npVarFFailingEval]
  have hsqrt : Real.sqrt
      ((npVarF (returnsF [⟨1000⟩, ⟨1000⟩, ⟨1000⟩]) : ℚ) : ℝ) ≠ 0 := by
    rw [hv]
    refine ne_of_gt (Real.sqrt_pos.mpr ?_)
    push_cast
    positivity
  refine ⟨hv, hsqrt, ?_⟩
  rw [calculate_sharpe_ratio_float]
  rw [if_neg (by norm_num), if_neg (by rw [returnsFFailingEval]; norm_num),
    if_neg hsqrt]
  have hnum : (0 : ℝ) <
      ((npMeanF (returnsF [⟨1000⟩, ⟨1000⟩, ⟨1000⟩]) : ℚ) : ℝ) -
        ((2/100 : ℚ) : ℝ) / 252 := by
    rw [returnsFFailingEval, npMeanFFailingEval]
    push_cast
    norm_num
  have hs : (0 : ℝ) <
      Real.sqrt ((npVarF (returnsF [⟨1000⟩, ⟨1000⟩, ⟨1000⟩]) : ℚ) : ℝ) := by
    rw [hv]
    refine Real.sqrt_pos.mpr ?_
    push_cast
    positivity
  have h252 : (0 : ℝ) < Real.sqrt 252 := Real.sqrt_pos.mpr (by norm_num)
  exact mul_pos (div_pos hnum hs) h252

/-- Witness for the amended C10 theorem: instantiated at
`min_hold_period = 2`, `signals = [0, 1]`, bar `i = 1`. -/
theorem filterSignalsCounterAmendedWitness :
    1 < ([0, (1 : ℤ)] : List ℤ).length ∧
    (filterState 2 [0, 1] 2).2 =
      (if ([0, (1 : ℤ)] : List ℤ).getD 1 0 ≠ 0 ∧
          ([0, (1 : ℤ)] : List ℤ).getD 1 0 ≠ (filterState 2 [0, 1] 1).1 then
        (if (filterState 2 [0, 1] 1).2 < 2 then (filterState 2 [0, 1] 1).2
         else 0)
       else (filterState 2 [0, 1] 1).2 + 1) :=
  ⟨by decide, filterSignalsCounterAmended 2 [0, 1] 1 (by decide)⟩
